import Mathlib

/-!
Verification of the little-crab-tv software rasterizer against its
natural-language specification.  The Rust source is shallowly embedded:
f32 arithmetic is modelled by exact rationals, u8 color components by
naturals, and fallible slice reads by Option.
-/

set_option linter.unusedVariables false
set_option maxRecDepth 100000

namespace CrabTV

/-- Model of f32 square root on rationals: exact on perfect squares of
rationals (the only inputs the claims evaluate it at), Nat.sqrt based
approximation elsewhere, 0 on nonpositive input. -/
def ratSqrt (q : ℚ) : ℚ :=
  if q ≤ 0 then 0 else (Nat.sqrt q.num.toNat : ℚ) / (Nat.sqrt q.den : ℚ)

/-- Model of the Rust cast f32-to-i32 ¦value as i32¦: truncation toward zero. -/
def ratTrunc (q : ℚ) : ℤ := if q < 0 then -⌊-q⌋ else ⌊q⌋

/-- Model of the Rust cast f32-to-usize ¦value as usize¦: negative values
saturate to 0, positive values truncate. -/
def ratFloorNat (q : ℚ) : ℕ := (ratTrunc q).toNat

/-- Model of the Rust cast f32-to-u8 ¦value as u8¦: saturating at 0 and 255,
truncating in between. -/
def f32ToU8 (q : ℚ) : ℕ := min 255 (ratTrunc q).toNat

/-- An 8-bit RGB pixel (the rgb crate's RGB8); components kept as naturals. -/
structure RGB8 where
  r : ℕ
  g : ℕ
  b : ℕ
deriving DecidableEq, Repr, Inhabited

/-- The rgb crate's componentwise map used as ¦color.map(|comp| ...)¦. -/
def rgbMap (f : ℕ → ℕ) (c : RGB8) : RGB8 := ⟨f c.r, f c.g, f c.b⟩

/-- crab_tv::WHITE. -/
def WHITE : RGB8 := ⟨255, 255, 255⟩

/-- glam IVec2: a 2-vector of 32-bit integers, modelled with unbounded ℤ. -/
structure IVec2 where
  x : ℤ
  y : ℤ
deriving DecidableEq, Repr

/-- glam Vec2 with f32 entries modelled as ℚ. -/
structure Vec2Q where
  x : ℚ
  y : ℚ
deriving DecidableEq, Repr

/-- glam Vec3 with f32 entries modelled as ℚ. -/
structure Vec3Q where
  x : ℚ
  y : ℚ
  z : ℚ
deriving DecidableEq, Repr

/-- glam Vec4 with f32 entries modelled as ℚ. -/
structure Vec4Q where
  x : ℚ
  y : ℚ
  z : ℚ
  w : ℚ
deriving DecidableEq, Repr

def v2add (a b : Vec2Q) : Vec2Q := ⟨a.x + b.x, a.y + b.y⟩

def v2scale (k : ℚ) (a : Vec2Q) : Vec2Q := ⟨k * a.x, k * a.y⟩

def v3add (a b : Vec3Q) : Vec3Q := ⟨a.x + b.x, a.y + b.y, a.z + b.z⟩

def v3sub (a b : Vec3Q) : Vec3Q := ⟨a.x - b.x, a.y - b.y, a.z - b.z⟩

def v3scale (k : ℚ) (a : Vec3Q) : Vec3Q := ⟨k * a.x, k * a.y, k * a.z⟩

def v3dot (a b : Vec3Q) : ℚ := a.x * b.x + a.y * b.y + a.z * b.z

/-- glam Vec3::cross. -/
def v3cross (a b : Vec3Q) : Vec3Q :=
  ⟨a.y * b.z - a.z * b.y, a.z * b.x - a.x * b.z, a.x * b.y - a.y * b.x⟩

/-- glam Vec3::normalize: divide by the length (modelled by ratSqrt). -/
def v3normalize (v : Vec3Q) : Vec3Q := v3scale (1 / ratSqrt (v3dot v v)) v

def v3neg (a : Vec3Q) : Vec3Q := ⟨-a.x, -a.y, -a.z⟩

/-- glam Mat3 (column major): three columns. -/
structure Mat3Q where
  c0 : Vec3Q
  c1 : Vec3Q
  c2 : Vec3Q
deriving DecidableEq, Repr

/-- glam Mat3 * Vec3: linear combination of the columns. -/
def m3mulv (m : Mat3Q) (v : Vec3Q) : Vec3Q :=
  v3add (v3scale v.x m.c0) (v3add (v3scale v.y m.c1) (v3scale v.z m.c2))

def m3col (m : Mat3Q) (i : Fin 3) : Vec3Q :=
  match i with
  | 0 => m.c0
  | 1 => m.c1
  | 2 => m.c2

def m3transpose (m : Mat3Q) : Mat3Q :=
  ⟨⟨m.c0.x, m.c1.x, m.c2.x⟩, ⟨m.c0.y, m.c1.y, m.c2.y⟩, ⟨m.c0.z, m.c1.z, m.c2.z⟩⟩

/-- glam Mat3::inverse: adjugate over determinant, as cross products of the
columns; division by a zero determinant is modelled by rational division
(glam produces non-finite values there). -/
def m3inverse (m : Mat3Q) : Mat3Q :=
  let tmp0 := v3cross m.c1 m.c2
  let tmp1 := v3cross m.c2 m.c0
  let tmp2 := v3cross m.c0 m.c1
  let det := v3dot m.c2 tmp2
  m3transpose ⟨v3scale (1 / det) tmp0, v3scale (1 / det) tmp1, v3scale (1 / det) tmp2⟩

/-- glam Mat4 (column major): four columns. -/
structure Mat4Q where
  c0 : Vec4Q
  c1 : Vec4Q
  c2 : Vec4Q
  c3 : Vec4Q
deriving DecidableEq, Repr

/-- glam Mat4 * Vec4. -/
def m4mulv (m : Mat4Q) (v : Vec4Q) : Vec4Q :=
  ⟨m.c0.x * v.x + m.c1.x * v.y + m.c2.x * v.z + m.c3.x * v.w,
    m.c0.y * v.x + m.c1.y * v.y + m.c2.y * v.z + m.c3.y * v.w,
    m.c0.z * v.x + m.c1.z * v.y + m.c2.z * v.z + m.c3.z * v.w,
    m.c0.w * v.x + m.c1.w * v.y + m.c2.w * v.z + m.c3.w * v.w⟩

/-- glam Mat4 * Mat4: each result column is the left matrix applied to the
corresponding right column. -/
def m4mul (a b : Mat4Q) : Mat4Q := ⟨m4mulv a b.c0, m4mulv a b.c1, m4mulv a b.c2, m4mulv a b.c3⟩

def m4transpose (m : Mat4Q) : Mat4Q :=
  ⟨⟨m.c0.x, m.c1.x, m.c2.x, m.c3.x⟩, ⟨m.c0.y, m.c1.y, m.c2.y, m.c3.y⟩,
    ⟨m.c0.z, m.c1.z, m.c2.z, m.c3.z⟩, ⟨m.c0.w, m.c1.w, m.c2.w, m.c3.w⟩⟩

/-- glam Mat4::project_point3: extend with w = 1, transform, divide by the
resulting w and drop it. -/
def project_point3 (m : Mat4Q) (v : Vec3Q) : Vec3Q :=
  let r := m4mulv m ⟨v.x, v.y, v.z, 1⟩
  ⟨r.x / r.w, r.y / r.w, r.z / r.w⟩

/-- glam Mat4::transform_vector3: extend with w = 0, transform, drop w. -/
def transform_vector3 (m : Mat4Q) (v : Vec3Q) : Vec3Q :=
  let r := m4mulv m ⟨v.x, v.y, v.z, 0⟩
  ⟨r.x, r.y, r.z⟩

/-- maths.rs yolo_max: total-order max on floats, with non-NaN precondition;
on rationals this is plain max. -/
def yolo_max (a b : ℚ) : ℚ := max a b

/-- maths.rs yolo_min. -/
def yolo_min (a b : ℚ) : ℚ := min a b

/-! ## Evaluation lemmas for the numeric model -/

/-- ratSqrt is the exact square root on perfect squares of rationals. -/
theorem ratSqrt_eval {q s : ℚ} (h0 : 0 ≤ s) (h : s * s = q) : ratSqrt q = s := by
  rcases lt_or_le 0 q with hq | hq
  · unfold ratSqrt
    rw [if_neg (not_le.mpr hq)]
    obtain ⟨a, ha⟩ : ∃ a : ℕ, s.num = (a : ℤ) :=
      ⟨s.num.toNat, (Int.toNat_of_nonneg (Rat.num_nonneg.mpr h0)).symm⟩
    have hnum : q.num = (a : ℤ) * (a : ℤ) := by rw [← h, Rat.mul_self_num, ha]
    have hden : q.den = s.den * s.den := by rw [← h, Rat.mul_self_den]
    have h1 : q.num.toNat = a * a := by rw [hnum]; exact_mod_cast Int.toNat_natCast (a * a)
    rw [h1, hden, Nat.sqrt_eq, Nat.sqrt_eq]
    rw [show ((a : ℕ) : ℚ) = ((s.num : ℤ) : ℚ) by rw [ha]; push_cast; ring]
    exact Rat.num_div_den s
  · have hq0 : q = 0 := le_antisymm hq (h ▸ mul_self_nonneg s)
    have hs : s = 0 := by
      have := h.trans hq0
      exact mul_self_eq_zero.mp this
    unfold ratSqrt
    rw [if_pos (le_of_eq hq0), hs]

theorem ratTrunc_intCast (n : ℤ) : ratTrunc (n : ℚ) = n := by
  unfold ratTrunc
  split_ifs with h
  · rw [show -((n : ℚ)) = ((-n : ℤ) : ℚ) by push_cast; ring, Int.floor_intCast]; ring
  · exact Int.floor_intCast n

theorem ratTrunc_eval_nonneg {q : ℚ} {n : ℤ} (h0 : 0 ≤ q) (h1 : (n : ℚ) ≤ q)
    (h2 : q < n + 1) : ratTrunc q = n := by
  unfold ratTrunc
  rw [if_neg (not_lt.mpr h0)]
  exact Int.floor_eq_iff.mpr ⟨h1, h2⟩

/-! ## maths.rs: barycentric coordinates (claims C6, C7) -/

/-- maths.rs barycentric_coords_2d: integer screen points are cast to f32,
the cross product of the two edge/query vectors is taken, and the result is
either the degenerate sentinel or the normalized coordinates. -/
def barycentric_coords_2d (pts : Fin 3 → IVec2) (p : IVec2) : Vec3Q :=
  let u : Vec3Q :=
    v3cross
      ⟨(((pts 2).x - (pts 0).x : ℤ) : ℚ), (((pts 1).x - (pts 0).x : ℤ) : ℚ),
        (((pts 0).x - p.x : ℤ) : ℚ)⟩
      ⟨(((pts 2).y - (pts 0).y : ℤ) : ℚ), (((pts 1).y - (pts 0).y : ℤ) : ℚ),
        (((pts 0).y - p.y : ℤ) : ℚ)⟩
  if |u.z| < 1 then ⟨-1, 1, 1⟩
  else ⟨1 - (u.x + u.y) / u.z, u.y / u.z, u.x / u.z⟩

/-- maths.rs barycentric_coords_3d: the same computation on f32 points,
dropping the z components of the triangle points. -/
def barycentric_coords_3d (pts : Fin 3 → Vec3Q) (p : Vec2Q) : Vec3Q :=
  let u : Vec3Q :=
    v3cross
      ⟨(pts 2).x - (pts 0).x, (pts 1).x - (pts 0).x, (pts 0).x - p.x⟩
      ⟨(pts 2).y - (pts 0).y, (pts 1).y - (pts 0).y, (pts 0).y - p.y⟩
  if |u.z| < 1 then ⟨-1, 1, 1⟩
  else ⟨1 - (u.x + u.y) / u.z, u.y / u.z, u.x / u.z⟩

/-! ## shaders.rs bucket_intensity (claim C8) -/

/-- shaders.rs bucket_intensity: maps a Gouraud intensity into six buckets. -/
def bucket_intensity (intensity : ℚ) : ℚ :=
  if intensity > 17/20 then 1
  else if intensity > 3/5 then 4/5
  else if intensity > 9/20 then 3/5
  else if intensity > 3/10 then 9/20
  else if intensity > 3/20 then 3/10
  else 0

/-! ## Claim theorems for C6, C7, C8 -/

/-- The S3 test triangle (0,0), (10,0), (0,10). -/
def ptsS3 : Fin 3 → IVec2 := fun i =>
  match i with
  | 0 => ⟨0, 0⟩
  | 1 => ⟨10, 0⟩
  | 2 => ⟨0, 10⟩

private lemma bary_sum_helper (a b c : ℚ) (hc : c ≠ 0) :
    1 - (a + b) / c + b / c + a / c = 1 := by
  field_simp
  ring

/-- Claim C6: the barycentric coordinate function computes the cross product
of (C.x-A.x, B.x-A.x, A.x-P.x) and (C.y-A.y, B.y-A.y, A.y-P.y), returns
(-1,1,1) when the absolute z component is below 1 and the normalized
coordinates otherwise; on the triangle (0,0),(10,0),(0,10) it yields
(0.5, 0.2, 0.3) at P=(2,3) and a negative component at P=(-1,-1). -/
theorem barycentric_coords_2d_spec :
    (∀ (pts : Fin 3 → IVec2) (p : IVec2),
      barycentric_coords_2d pts p =
        (let ux : ℚ := (((pts 1).x - (pts 0).x : ℤ) : ℚ) * (((pts 0).y - p.y : ℤ) : ℚ) -
            (((pts 0).x - p.x : ℤ) : ℚ) * (((pts 1).y - (pts 0).y : ℤ) : ℚ)
         let uy : ℚ := (((pts 0).x - p.x : ℤ) : ℚ) * (((pts 2).y - (pts 0).y : ℤ) : ℚ) -
            (((pts 2).x - (pts 0).x : ℤ) : ℚ) * (((pts 0).y - p.y : ℤ) : ℚ)
         let uz : ℚ := (((pts 2).x - (pts 0).x : ℤ) : ℚ) * (((pts 1).y - (pts 0).y : ℤ) : ℚ) -
            (((pts 1).x - (pts 0).x : ℤ) : ℚ) * (((pts 2).y - (pts 0).y : ℤ) : ℚ)
         if |uz| < 1 then ⟨-1, 1, 1⟩ else ⟨1 - (ux + uy) / uz, uy / uz, ux / uz⟩)) ∧
    barycentric_coords_2d ptsS3 ⟨2, 3⟩ = ⟨1/2, 1/5, 3/10⟩ ∧
    ((barycentric_coords_2d ptsS3 ⟨-1, -1⟩).x < 0 ∨
      (barycentric_coords_2d ptsS3 ⟨-1, -1⟩).y < 0 ∨
      (barycentric_coords_2d ptsS3 ⟨-1, -1⟩).z < 0) := by
  refine ⟨fun pts p => rfl, ?_, ?_⟩
  · norm_num [barycentric_coords_2d, v3cross, ptsS3]
  · right; left
    show (barycentric_coords_2d ptsS3 ⟨-1, -1⟩).y < 0
    norm_num [barycentric_coords_2d, v3cross, ptsS3]

/-- Claim C7: whenever the degenerate branch is not taken (the cross
product z component has absolute value at least 1), the three barycentric
coordinates sum to 1 within 1e-4 (exactly 1 in the rational model). -/
theorem barycentric_coords_2d_sum_one (pts : Fin 3 → IVec2) (p : IVec2)
    (h : 1 ≤ |((pts 2).x - (pts 0).x) * ((pts 1).y - (pts 0).y) -
          ((pts 1).x - (pts 0).x) * ((pts 2).y - (pts 0).y)|) :
    |((barycentric_coords_2d pts p).x + (barycentric_coords_2d pts p).y +
        (barycentric_coords_2d pts p).z) - 1| ≤ 1 / 10000 := by
  have hz : (1 : ℚ) ≤
      |(((pts 2).x - (pts 0).x : ℤ) : ℚ) * (((pts 1).y - (pts 0).y : ℤ) : ℚ) -
        (((pts 1).x - (pts 0).x : ℤ) : ℚ) * (((pts 2).y - (pts 0).y : ℤ) : ℚ)| := by
    exact_mod_cast h
  have hne : (((pts 2).x - (pts 0).x : ℤ) : ℚ) * (((pts 1).y - (pts 0).y : ℤ) : ℚ) -
      (((pts 1).x - (pts 0).x : ℤ) : ℚ) * (((pts 2).y - (pts 0).y : ℤ) : ℚ) ≠ 0 := by
    intro h0
    rw [h0] at hz
    norm_num at hz
  simp only [barycentric_coords_2d, v3cross]
  rw [if_neg (not_lt.mpr hz)]
  rw [bary_sum_helper _ _ _ hne]
  norm_num

/-- Witness for C7 at the S3 triangle and P=(2,3). -/
theorem barycentric_coords_2d_sum_one_witness :
    (1 ≤ |((ptsS3 2).x - (ptsS3 0).x) * ((ptsS3 1).y - (ptsS3 0).y) -
        ((ptsS3 1).x - (ptsS3 0).x) * ((ptsS3 2).y - (ptsS3 0).y)|) ∧
    |((barycentric_coords_2d ptsS3 ⟨2, 3⟩).x + (barycentric_coords_2d ptsS3 ⟨2, 3⟩).y +
        (barycentric_coords_2d ptsS3 ⟨2, 3⟩).z) - 1| ≤ 1 / 10000 :=
  ⟨by decide, barycentric_coords_2d_sum_one ptsS3 ⟨2, 3⟩ (by decide)⟩

/-- Claim C8: bucket_intensity maps every intensity into the six-element
set 0, 0.30, 0.45, 0.60, 0.80, 1.0, returning 1.0 above 0.85, 0.80 above
0.60, 0.60 above 0.45, 0.45 above 0.30, 0.30 above 0.15 and 0 otherwise. -/
theorem bucket_intensity_spec (i : ℚ) :
    bucket_intensity i ∈ ([0, 3/10, 9/20, 3/5, 4/5, 1] : List ℚ) ∧
    (17/20 < i → bucket_intensity i = 1) ∧
    (3/5 < i ∧ i ≤ 17/20 → bucket_intensity i = 4/5) ∧
    (9/20 < i ∧ i ≤ 3/5 → bucket_intensity i = 3/5) ∧
    (3/10 < i ∧ i ≤ 9/20 → bucket_intensity i = 9/20) ∧
    (3/20 < i ∧ i ≤ 3/10 → bucket_intensity i = 3/10) ∧
    (i ≤ 3/20 → bucket_intensity i = 0) := by
  unfold bucket_intensity
  split_ifs with h1 h2 h3 h4 h5 <;>
    refine ⟨by norm_num [List.mem_cons], fun h => ?_, fun h => ?_, fun h => ?_,
      fun h => ?_, fun h => ?_, fun h => ?_⟩ <;>
    first
      | rfl
      | (exfalso; rcases h with ⟨ha, hb⟩ <;> linarith)
      | (exfalso; linarith)

/-- Witness for C8 exercising every bucket. -/
theorem bucket_intensity_spec_witness :
    bucket_intensity (9/10) = 1 ∧ bucket_intensity (7/10) = 4/5 ∧
    bucket_intensity (1/2) = 3/5 ∧ bucket_intensity (2/5) = 9/20 ∧
    bucket_intensity (1/5) = 3/10 ∧ bucket_intensity (1/10) = 0 :=
  ⟨(bucket_intensity_spec (9/10)).2.1 (by norm_num),
    (bucket_intensity_spec (7/10)).2.2.1 (by norm_num),
    (bucket_intensity_spec (1/2)).2.2.2.1 (by norm_num),
    (bucket_intensity_spec (2/5)).2.2.2.2.1 (by norm_num),
    (bucket_intensity_spec (1/5)).2.2.2.2.2.1 (by norm_num),
    (bucket_intensity_spec (1/10)).2.2.2.2.2.2 (by norm_num)⟩

/-! ## maths.rs look_at_transform (claim C5) -/

/-- The z axis computed by look_at_transform: normalize(eye - center). -/
def lookAtZ (eye center : Vec3Q) : Vec3Q := v3normalize (v3sub eye center)

/-- The x axis computed by look_at_transform: normalize(up cross z). -/
def lookAtX (eye center up : Vec3Q) : Vec3Q := v3normalize (v3cross up (lookAtZ eye center))

/-- The y axis computed by look_at_transform: normalize(z cross x). -/
def lookAtY (eye center up : Vec3Q) : Vec3Q :=
  v3normalize (v3cross (lookAtZ eye center) (lookAtX eye center up))

/-- maths.rs look_at_transform: the loop writes the axis vectors into the
rows of the upper 3x3 of an identity matrix (column i gets x i, y i, z i in
its first three slots) and -center into the fourth column of a second
identity matrix, then multiplies the two. -/
def look_at_transform (eye center up : Vec3Q) : Mat4Q :=
  let z := lookAtZ eye center
  let x := lookAtX eye center up
  let y := lookAtY eye center up
  let minv : Mat4Q :=
    ⟨⟨x.x, y.x, z.x, 0⟩, ⟨x.y, y.y, z.y, 0⟩, ⟨x.z, y.z, z.z, 0⟩, ⟨0, 0, 0, 1⟩⟩
  let tr : Mat4Q :=
    ⟨⟨1, 0, 0, 0⟩, ⟨0, 1, 0, 0⟩, ⟨0, 0, 1, 0⟩, ⟨-center.x, -center.y, -center.z, 1⟩⟩
  m4mul minv tr

/-- A 4x4 rotation-style matrix whose upper 3x3 ROWS are x, y, z. -/
def rotationRowsMat (x y z : Vec3Q) : Mat4Q :=
  ⟨⟨x.x, y.x, z.x, 0⟩, ⟨x.y, y.y, z.y, 0⟩, ⟨x.z, y.z, z.z, 0⟩, ⟨0, 0, 0, 1⟩⟩

/-- A 4x4 rotation-style matrix whose upper 3x3 COLUMNS are x, y, z,
following the wording of claim C5. -/
def rotationColsMat (x y z : Vec3Q) : Mat4Q :=
  ⟨⟨x.x, x.y, x.z, 0⟩, ⟨y.x, y.y, y.z, 0⟩, ⟨z.x, z.y, z.z, 0⟩, ⟨0, 0, 0, 1⟩⟩

/-- A 4x4 translation by t. -/
def translationMat (t : Vec3Q) : Mat4Q :=
  ⟨⟨1, 0, 0, 0⟩, ⟨0, 1, 0, 0⟩, ⟨0, 0, 1, 0⟩, ⟨t.x, t.y, t.z, 1⟩⟩

/-- The x axis as worded by claim C5: normalize(up cross (eye - center)). -/
def claimC5X (eye center up : Vec3Q) : Vec3Q := v3normalize (v3cross up (v3sub eye center))

/-- The y axis as worded by claim C5: normalize((eye - center) cross x). -/
def claimC5Y (eye center up : Vec3Q) : Vec3Q :=
  v3normalize (v3cross (v3sub eye center) (claimC5X eye center up))

/-- The z axis as worded by claim C5: normalize(eye - center). -/
def claimC5Z (eye center : Vec3Q) : Vec3Q := v3normalize (v3sub eye center)

/-- The look-at matrix as claim C5 words it: a rotation whose COLUMNS are
the x, y, z axes times a translation by -center. -/
def claimC5LookAt (eye center up : Vec3Q) : Mat4Q :=
  m4mul
    (rotationColsMat (claimC5X eye center up) (claimC5Y eye center up) (claimC5Z eye center))
    (translationMat (v3neg center))

/-- Counterexample to claim C5: at eye = (3,4,0), center = 0, up = (0,0,1)
the code's matrix differs from the claimed columns-form product (the code
puts the axes into the rows of the rotation factor, not the columns). -/
theorem look_at_claim_cex :
    look_at_transform ⟨3, 4, 0⟩ ⟨0, 0, 0⟩ ⟨0, 0, 1⟩ ≠
      claimC5LookAt ⟨3, 4, 0⟩ ⟨0, 0, 0⟩ ⟨0, 0, 1⟩ := by
  have h25 : ratSqrt 25 = 5 := ratSqrt_eval (by norm_num) (by norm_num)
  have h1s : ratSqrt 1 = 1 := ratSqrt_eval (by norm_num) (by norm_num)
  intro h
  have hc := congrArg (fun m => m.c0.y) h
  simp only [look_at_transform, claimC5LookAt, lookAtX, lookAtY, lookAtZ, claimC5X,
    claimC5Y, claimC5Z, rotationColsMat, translationMat, v3normalize, v3cross, v3sub,
    v3dot, v3scale, v3neg, m4mul, m4mulv] at hc
  norm_num [h25, h1s] at hc

/-- Claim C5 amended: look_at_transform(eye, center, up) is the product
R * T where the ROWS of the rotation R are the axes x = normalize(up cross z),
y = normalize(z cross x), z = normalize(eye - center) (equivalently, R is the
transpose of the rotation carrying those axes as columns), and T is the
translation by -center. -/
theorem look_at_transform_amended :
    (∀ eye center up : Vec3Q,
      look_at_transform eye center up =
        m4mul (rotationRowsMat (lookAtX eye center up) (lookAtY eye center up)
            (lookAtZ eye center))
          (translationMat (v3neg center))) ∧
    (∀ x y z : Vec3Q, rotationRowsMat x y z = m4transpose (rotationColsMat x y z)) :=
  ⟨fun eye center up => rfl, fun x y z => rfl⟩

/-! ## model.rs Texture (claim C3) -/

/-- model.rs Texture: width, height and the flat pixel array. -/
structure Texture where
  width : ℕ
  height : ℕ
  data : List RGB8
deriving Repr

/-- model.rs Texture::get_pixel: truncate the scaled uv coordinates to
integers and read the pixel array at the v-flipped index
(height - y) * width + x.  The result is none exactly where the Rust slice
indexing panics (index out of bounds); the debug asserts x < width and
y < height do not prevent that. -/
def Texture.get_pixel (t : Texture) (uv : Vec2Q) : Option RGB8 :=
  let x := ratFloorNat uv.x
  let y := ratFloorNat uv.y
  t.data.get? ((t.height - y) * t.width + x)

/-- Total version of get_pixel used when embedding shader fragments; where
it differs from get_pixel the Rust program panics (see claim C3). -/
def Texture.get_pixelD (t : Texture) (uv : Vec2Q) : RGB8 :=
  (t.get_pixel uv).getD ⟨0, 0, 0⟩

/-- model.rs Texture::get_normal: renormalize each channel into the signed
range -1 to 1. -/
def Texture.get_normal (t : Texture) (uv : Vec2Q) : Vec3Q :=
  let p := t.get_pixelD uv
  ⟨(p.r : ℚ) / 255 * 2 - 1, (p.g : ℚ) / 255 * 2 - 1, (p.b : ℚ) / 255 * 2 - 1⟩

/-- model.rs Texture::get_specular: the red channel as a float. -/
def Texture.get_specular (t : Texture) (uv : Vec2Q) : ℚ :=
  ((t.get_pixelD uv).r : ℚ)

/-- Nonnegative evaluation rule for the f32-to-usize cast model. -/
theorem ratFloorNat_eval {q : ℚ} {n : ℕ} (h0 : 0 ≤ q) (h1 : (n : ℚ) ≤ q)
    (h2 : q < n + 1) : ratFloorNat q = n := by
  unfold ratFloorNat
  rw [ratTrunc_eval_nonneg h0 (by exact_mod_cast h1) (by exact_mod_cast h2)]
  exact Int.toNat_natCast n

/-- Strict upper bounds transfer through the f32-to-usize cast model. -/
theorem ratFloorNat_lt {q : ℚ} {n : ℕ} (h0 : 0 ≤ q) (h : q < n) : ratFloorNat q < n := by
  unfold ratFloorNat ratTrunc
  rw [if_neg (not_lt.mpr h0)]
  have hf : ⌊q⌋ < (n : ℤ) := Int.floor_lt.mpr (by exact_mod_cast h)
  have hge : 0 ≤ ⌊q⌋ := Int.floor_nonneg.mpr h0
  omega

/-- Lower bounds transfer through the f32-to-usize cast model. -/
theorem ratFloorNat_le {q : ℚ} {n : ℕ} (h : (n : ℚ) ≤ q) : (n : ℕ) ≤ ratFloorNat q := by
  unfold ratFloorNat ratTrunc
  have h0 : ¬ q < 0 := not_lt.mpr (le_trans (by positivity) h)
  rw [if_neg h0]
  have hf : (n : ℤ) ≤ ⌊q⌋ := Int.le_floor.mpr (by exact_mod_cast h)
  calc n = ((n : ℤ)).toNat := (Int.toNat_natCast n).symm
    _ ≤ ⌊q⌋.toNat := Int.toNat_le_toNat hf

/-- The 2x2 texture used for the claim C3 counterexample and witness. -/
def texC3 : Texture :=
  ⟨2, 2, [⟨10, 10, 10⟩, ⟨20, 20, 20⟩, ⟨30, 30, 30⟩, ⟨40, 40, 40⟩]⟩

/-- Counterexample to claim C3: the uv coordinate (0, 0) lies in the stated
domain (0 <= u < W, 0 <= v < H) yet the read is out of bounds (index
(2 - 0) * 2 + 0 = 4 into a 4-element array), i.e. the Rust code panics. -/
theorem texture_get_pixel_cex :
    ((0 : ℚ) ≤ 0 ∧ (0 : ℚ) < texC3.width ∧ (0 : ℚ) ≤ 0 ∧ (0 : ℚ) < texC3.height) ∧
      texC3.get_pixel ⟨0, 0⟩ = none := by
  have h0 : ratFloorNat (0 : ℚ) = 0 := ratFloorNat_eval le_rfl (by norm_num) (by norm_num)
  refine ⟨⟨le_rfl, by norm_num [texC3], le_rfl, by norm_num [texC3]⟩, ?_⟩
  simp [Texture.get_pixel, texC3, h0]

/-- Claim C3 amended: for a texture whose pixel array has length W * H and a
scaled uv with 0 <= u < W and 1 <= v < H, get_pixel reads index
(H - floor v) * W + floor u, that index is in bounds, and the read
succeeds; for v < 1 the index is at least W * H and the read panics
(see the counterexample). -/
theorem texture_get_pixel_amended (t : Texture) (u v : ℚ)
    (hlen : t.data.length = t.width * t.height)
    (hu0 : 0 ≤ u) (hu : u < t.width) (hv1 : 1 ≤ v) (hv : v < t.height) :
    (t.height - ratFloorNat v) * t.width + ratFloorNat u < t.width * t.height ∧
    (t.get_pixel ⟨u, v⟩).isSome = true ∧
    t.get_pixel ⟨u, v⟩ =
      t.data.get? ((t.height - ratFloorNat v) * t.width + ratFloorNat u) := by
  have hx : ratFloorNat u < t.width := ratFloorNat_lt hu0 hu
  have hy1 : 1 ≤ ratFloorNat v := by
    have := ratFloorNat_le (n := 1) (q := v) (by exact_mod_cast hv1)
    omega
  have hy2 : ratFloorNat v < t.height := ratFloorNat_lt (le_trans zero_le_one hv1) hv
  have hidx : (t.height - ratFloorNat v) * t.width + ratFloorNat u < t.width * t.height := by
    have h1 : t.height - ratFloorNat v ≤ t.height - 1 := by omega
    have h2 : (t.height - ratFloorNat v) * t.width ≤ (t.height - 1) * t.width :=
      Nat.mul_le_mul_right _ h1
    have h3 : (t.height - 1) * t.width + t.width = t.height * t.width := by
      have hH1 : 1 ≤ t.height := by omega
      have hw : t.width ≤ t.height * t.width := by
        calc t.width = 1 * t.width := (one_mul _).symm
          _ ≤ t.height * t.width := Nat.mul_le_mul_right _ hH1
      rw [Nat.sub_mul, Nat.one_mul, Nat.sub_add_cancel hw]
    calc (t.height - ratFloorNat v) * t.width + ratFloorNat u
        < (t.height - ratFloorNat v) * t.width + t.width := Nat.add_lt_add_left hx _
      _ ≤ (t.height - 1) * t.width + t.width := Nat.add_le_add_right h2 _
      _ = t.height * t.width := h3
      _ = t.width * t.height := Nat.mul_comm _ _
  refine ⟨hidx, ?_, rfl⟩
  show (t.data.get? ((t.height - ratFloorNat v) * t.width + ratFloorNat u)).isSome = true
  rw [List.get?_eq_get (by rw [hlen]; exact hidx)]
  rfl

/-- Witness for the amended claim C3 at the concrete texture and uv (1,1). -/
theorem texture_get_pixel_amended_witness :
    (texC3.data.length = texC3.width * texC3.height) ∧
    (texC3.get_pixel ⟨1, 1⟩).isSome = true :=
  ⟨rfl,
    (texture_get_pixel_amended texC3 1 1 rfl (by norm_num) (by norm_num [texC3])
        (by norm_num) (by norm_num [texC3])).2.1⟩

/-! ## canvas.rs Canvas (claims C9, C2) -/

/-- canvas.rs Canvas: width, height and the flat row-major color buffer
(index y * width + x), modelled as a total function on indices.  The zbuf
field is Modelled from the spec: the parallel depth buffer behind the
z_buffer_at accessor used by canvas_legacy.rs, whose own definition is not
part of the sources (spec section 3: parallel array of floats, row-major,
initialized to negative infinity). -/
structure Canvas where
  width : ℕ
  height : ℕ
  pixels : ℕ → RGB8
  zbuf : ℕ → ℚ

/-- canvas.rs Canvas::pixel: read the color buffer at y * width + x.  The
Rust i32 coordinates are cast to usize; in-bounds coordinates are nonneg. -/
def Canvas.pixel (c : Canvas) (x y : ℤ) : RGB8 :=
  c.pixels (y.toNat * c.width + x.toNat)

/-- Writing through canvas.rs Canvas::pixel (the &mut RGB8 it returns). -/
def Canvas.setPixel (c : Canvas) (x y : ℤ) (col : RGB8) : Canvas :=
  { c with pixels := fun k => if k = y.toNat * c.width + x.toNat then col else c.pixels k }

/-- Modelled from the spec: reading the depth buffer behind z_buffer_at. -/
def Canvas.zAt (c : Canvas) (x y : ℤ) : ℚ :=
  c.zbuf (y.toNat * c.width + x.toNat)

/-- Modelled from the spec: writing the depth buffer behind z_buffer_at. -/
def Canvas.setZ (c : Canvas) (x y : ℤ) (z : ℚ) : Canvas :=
  { c with zbuf := fun k => if k = y.toNat * c.width + x.toNat then z else c.zbuf k }

/-- Exchange the values of a flat buffer at two indices (Vec::swap). -/
def swapIdx {α : Type*} (f : ℕ → α) (i j : ℕ) : ℕ → α :=
  fun k => if k = i then f j else if k = j then f i else f k

/-- Run a sequence of swaps left to right over a flat buffer. -/
def applySwaps {α : Type*} (l : List (ℕ × ℕ)) (f : ℕ → α) : ℕ → α :=
  l.foldl (fun g p => swapIdx g p.1 p.2) f

/-- The swaps performed by canvas.rs Canvas::flip_y, in loop order: for each
y below height / 2 and each x below width, swap y * w + x with
(h - 1 - y) * w + x. -/
def rowSwapPairs (w h : ℕ) : List (ℕ × ℕ) :=
  (List.range (h / 2)).flatMap fun y =>
    (List.range w).map fun x => (y * w + x, (h - 1 - y) * w + x)

/-- canvas.rs Canvas::flip_y. -/
def Canvas.flip_y (c : Canvas) : Canvas :=
  { c with pixels := applySwaps (rowSwapPairs c.width c.height) c.pixels }

theorem swapIdx_involutive {α : Type*} (f : ℕ → α) (i j : ℕ) :
    swapIdx (swapIdx f i j) i j = f := by
  funext k
  by_cases hki : k = i <;> by_cases hkj : k = j <;> simp_all [swapIdx]

theorem swapIdx_comm {α : Type*} (f : ℕ → α) {i j a b : ℕ}
    (h : i ≠ a ∧ i ≠ b ∧ j ≠ a ∧ j ≠ b) :
    swapIdx (swapIdx f a b) i j = swapIdx (swapIdx f i j) a b := by
  obtain ⟨h1, h2, h3, h4⟩ := h
  have h1' : a ≠ i := Ne.symm h1
  have h2' : b ≠ i := Ne.symm h2
  have h3' : a ≠ j := Ne.symm h3
  have h4' : b ≠ j := Ne.symm h4
  funext k
  by_cases hki : k = i <;> by_cases hkj : k = j <;>
    by_cases hka : k = a <;> by_cases hkb : k = b <;>
    simp_all [swapIdx]

theorem swapIdx_applySwaps {α : Type*} (l : List (ℕ × ℕ)) (f : ℕ → α) {i j : ℕ}
    (h : ∀ p ∈ l, i ≠ p.1 ∧ i ≠ p.2 ∧ j ≠ p.1 ∧ j ≠ p.2) :
    applySwaps l (swapIdx f i j) = swapIdx (applySwaps l f) i j := by
  induction l generalizing f with
  | nil => rfl
  | cons q l ih =>
    show applySwaps l (swapIdx (swapIdx f i j) q.1 q.2) = _
    rw [← swapIdx_comm f (h q (List.mem_cons_self q l))]
    exact ih (swapIdx f q.1 q.2) fun p hp => h p (List.mem_cons_of_mem q hp)

/-- Pairwise-disjoint index pairs. -/
def PairDisj (p q : ℕ × ℕ) : Prop :=
  p.1 ≠ q.1 ∧ p.1 ≠ q.2 ∧ p.2 ≠ q.1 ∧ p.2 ≠ q.2

theorem applySwaps_involutive {α : Type*} (l : List (ℕ × ℕ)) (hl : l.Pairwise PairDisj) (f : ℕ → α) :
    applySwaps l (applySwaps l f) = f := by
  induction l generalizing f with
  | nil => rfl
  | cons p l ih =>
    rcases List.pairwise_cons.mp hl with ⟨hp, hlt⟩
    show applySwaps l (swapIdx (applySwaps l (swapIdx f p.1 p.2)) p.1 p.2) = f
    rw [← swapIdx_applySwaps l (swapIdx f p.1 p.2) fun q hq => (hp q hq)]
    rw [swapIdx_involutive]
    exact ih hlt f

theorem rowIdx_inj {w y1 x1 y2 x2 : ℕ} (hx1 : x1 < w) (hx2 : x2 < w)
    (h : y1 * w + x1 = y2 * w + x2) : y1 = y2 ∧ x1 = x2 := by
  rcases Nat.lt_trichotomy y1 y2 with hy | hy | hy
  · exfalso
    have hlt : y1 * w + x1 < y2 * w + x2 := by
      calc y1 * w + x1 < y1 * w + w := Nat.add_lt_add_left hx1 _
        _ = (y1 + 1) * w := (Nat.succ_mul y1 w).symm
        _ ≤ y2 * w := Nat.mul_le_mul_right w hy
        _ ≤ y2 * w + x2 := Nat.le_add_right _ _
    exact absurd h (Nat.ne_of_lt hlt)
  · refine ⟨hy, ?_⟩
    subst hy
    exact Nat.add_left_cancel h
  · exfalso
    have hlt : y2 * w + x2 < y1 * w + x1 := by
      calc y2 * w + x2 < y2 * w + w := Nat.add_lt_add_left hx2 _
        _ = (y2 + 1) * w := (Nat.succ_mul y2 w).symm
        _ ≤ y1 * w := Nat.mul_le_mul_right w hy
        _ ≤ y1 * w + x1 := Nat.le_add_right _ _
    exact absurd h.symm (Nat.ne_of_lt hlt)

theorem rowIdx_ne {w y1 x1 y2 x2 : ℕ} (hx1 : x1 < w) (hx2 : x2 < w)
    (h : y1 ≠ y2 ∨ x1 ≠ x2) : y1 * w + x1 ≠ y2 * w + x2 := by
  intro he
  rcases rowIdx_inj hx1 hx2 he with ⟨hy, hx⟩
  tauto

theorem rowSwapPairs_pairwise (w h : ℕ) : (rowSwapPairs w h).Pairwise PairDisj := by
  unfold rowSwapPairs
  rw [List.pairwise_flatMap]
  constructor
  · intro y hy
    rw [List.mem_range] at hy
    rw [List.pairwise_map]
    refine List.Pairwise.imp_of_mem ?_ (List.pairwise_lt_range w)
    intro x1 x2 hm1 hm2 hlt
    rw [List.mem_range] at hm1 hm2
    have hy2 : y ≠ h - 1 - y := by omega
    exact ⟨rowIdx_ne hm1 hm2 (Or.inr (Nat.ne_of_lt hlt)),
      rowIdx_ne hm1 hm2 (Or.inl hy2),
      rowIdx_ne hm1 hm2 (Or.inl (Ne.symm hy2)),
      rowIdx_ne hm1 hm2 (Or.inr (Nat.ne_of_lt hlt))⟩
  · refine List.Pairwise.imp_of_mem ?_ (List.pairwise_lt_range (h / 2))
    intro y1 y2 hm1 hm2 hlt p hp q hq
    rw [List.mem_range] at hm1 hm2
    rw [List.mem_map] at hp hq
    obtain ⟨x1, hx1, rfl⟩ := hp
    obtain ⟨x2, hx2, rfl⟩ := hq
    rw [List.mem_range] at hx1 hx2
    have ha : y1 ≠ y2 := Nat.ne_of_lt hlt
    have hb : y1 ≠ h - 1 - y2 := by omega
    have hc : h - 1 - y1 ≠ y2 := by omega
    have hd : h - 1 - y1 ≠ h - 1 - y2 := by omega
    exact ⟨rowIdx_ne hx1 hx2 (Or.inl ha), rowIdx_ne hx1 hx2 (Or.inl hb),
      rowIdx_ne hx1 hx2 (Or.inl hc), rowIdx_ne hx1 hx2 (Or.inl hd)⟩

/-- Claim C9: applying flip_y twice is the identity on the canvas; the swaps
performed by flip_y pair up disjoint indices, so running them twice restores
every pixel. -/
theorem flip_y_involutive (c : Canvas) : c.flip_y.flip_y = c := by
  cases c with
  | mk w h p z =>
    show Canvas.mk w h (applySwaps (rowSwapPairs w h) (applySwaps (rowSwapPairs w h) p)) z =
      Canvas.mk w h p z
    rw [applySwaps_involutive _ (rowSwapPairs_pairwise w h) p]

/-! ## canvas.rs line_fastest (claim C2) -/

/-- canvas.rs Canvas::new: zeroed color buffer; the depth buffer is
Modelled from the spec (initialized to negative infinity, represented by a
finite sentinel well below the -1e5 threshold). -/
def Canvas.new (w h : ℕ) : Canvas :=
  ⟨w, h, fun _ => ⟨0, 0, 0⟩, fun _ => -(1000000000 : ℚ)⟩

/-- The loop of canvas.rs Canvas::line_fastest: for x in x0..x1, write the
pixel (swapping axes when steep), accumulate error2 by derror2, and when it
exceeds dx step y and subtract 2*dx.  The fuel argument is the number of
remaining loop iterations, x1 - x0. -/
def lineFastestLoop (steep : Bool) (dx derror2 ystep : ℤ) :
    ℕ → ℤ → ℤ → ℤ → List (ℤ × ℤ)
  | 0, _, _, _ => []
  | n + 1, x, y, error2 =>
    (if steep then (y, x) else (x, y)) ::
      (let e := error2 + derror2
       if e > dx then lineFastestLoop steep dx derror2 ystep n (x + 1) (y + ystep) (e - dx * 2)
       else lineFastestLoop steep dx derror2 ystep n (x + 1) y e)

/-- The sequence of pixel coordinates written by canvas.rs
Canvas::line_fastest (Bresenham, integer maths): swap into the shallow
octant, order the endpoints by x, then run the loop for x in x0..x1. -/
def line_fastest_pixels (x0 y0 x1 y1 : ℤ) : List (ℤ × ℤ) :=
  let (steep, x0, y0, x1, y1) :=
    if (x0 - x1).natAbs < (y0 - y1).natAbs then (true, y0, x0, y1, x1)
    else (false, x0, y0, x1, y1)
  let (x0, y0, x1, y1) :=
    if x0 > x1 then (x1, y1, x0, y0) else (x0, y0, x1, y1)
  let dx := x1 - x0
  let dy := y1 - y0
  let derror2 := (dy.natAbs : ℤ) * 2
  let ystep : ℤ := if y1 > y0 then 1 else -1
  lineFastestLoop steep dx derror2 ystep (x1 - x0).toNat x0 y0 0

/-- canvas.rs Canvas::line_fastest as a canvas transformation: the pixel
writes of the loop applied in order through Canvas::pixel. -/
def Canvas.line_fastest (c : Canvas) (x0 y0 x1 y1 : ℤ) (color : RGB8) : Canvas :=
  (line_fastest_pixels x0 y0 x1 y1).foldl (fun c p => c.setPixel p.1 p.2 color) c

/-- The number of white pixels in the color buffer. -/
def Canvas.whiteCount (c : Canvas) : ℕ :=
  (List.range (c.width * c.height)).countP fun k => decide (c.pixels k = WHITE)

/-- The S1 scenario: the line from (13,20) to (80,40) drawn on a fresh
100x100 canvas in white. -/
def lineC2 : List (ℤ × ℤ) := line_fastest_pixels 13 20 80 40

def lineIdxC2 : List ℕ := lineC2.map fun p => p.2.toNat * 100 + p.1.toNat

def lineCanvasC2 : Canvas := (Canvas.new 100 100).line_fastest 13 20 80 40 WHITE

theorem line_fold_pixels (L : List (ℤ × ℤ)) (col : RGB8) (c : Canvas) (k : ℕ) :
    ((L.foldl (fun c p => c.setPixel p.1 p.2 col) c).pixels) k =
      if k ∈ L.map (fun p => p.2.toNat * c.width + p.1.toNat) then col else c.pixels k := by
  induction L generalizing c with
  | nil => simp
  | cons q L ih =>
    show ((L.foldl _ (c.setPixel q.1 q.2 col)).pixels) k = _
    rw [ih (c.setPixel q.1 q.2 col)]
    simp only [Canvas.setPixel, List.map_cons, List.mem_cons]
    by_cases h1 : k ∈ L.map fun p => p.2.toNat * c.width + p.1.toNat <;>
      by_cases h2 : k = q.2.toNat * c.width + q.1.toNat <;>
      simp [h1, h2]

theorem lineCanvasC2_pixels (k : ℕ) :
    lineCanvasC2.pixels k = if k ∈ lineIdxC2 then WHITE else ⟨0, 0, 0⟩ := by
  show ((line_fastest_pixels 13 20 80 40).foldl
      (fun c p => c.setPixel p.1 p.2 WHITE) (Canvas.new 100 100)).pixels k = _
  rw [line_fold_pixels]
  rfl

/-- Counterexample to claim C2: drawing the S1 line leaves the endpoint
(80,40) untouched (the loop is exclusive of x1), so the claimed conjunction
is false: pixel (80,40) is black, not white. -/
theorem line_fastest_claim_cex :
    ¬ (lineCanvasC2.pixel 13 20 = WHITE ∧ lineCanvasC2.pixel 80 40 = WHITE ∧
        lineCanvasC2.whiteCount = 67) := by
  intro hcl
  have hp : lineCanvasC2.pixels 4080 = WHITE := hcl.2.1
  rw [lineCanvasC2_pixels 4080] at hp
  have hmem : (4080 : ℕ) ∉ lineIdxC2 := by decide
  rw [if_neg hmem] at hp
  exact absurd hp (by decide)

private theorem countP_mem_of_nodup {G L : List ℕ} (hG : G.Nodup) (hL : L.Nodup)
    (hsub : ∀ a ∈ L, a ∈ G) : (G.countP fun a => decide (a ∈ L)) = L.length := by
  rw [List.countP_eq_length_filter]
  have hperm : (G.filter fun a => decide (a ∈ L)).Perm L := by
    apply List.perm_of_nodup_nodup_toFinset_eq (hG.filter _) hL
    ext a
    simp only [List.mem_toFinset, List.mem_filter, decide_eq_true_eq]
    exact ⟨fun h => h.2, fun h => ⟨hsub a h, h⟩⟩
  exact hperm.length_eq

/-- Claim C2 amended: the S1 line sets pixel (13,20) white, writes 67
distinct white pixels in total (67 = max of the coordinate spans), but the
endpoint (80,40) is exclusive and stays black. -/
theorem line_fastest_amended :
    lineCanvasC2.pixel 13 20 = WHITE ∧
    lineCanvasC2.pixel 80 40 = ⟨0, 0, 0⟩ ∧
    lineCanvasC2.whiteCount = 67 ∧
    lineC2.length = 67 ∧ lineC2.Nodup := by
  refine ⟨?_, ?_, ?_, by decide, by decide⟩
  · show lineCanvasC2.pixels 2013 = WHITE
    rw [lineCanvasC2_pixels 2013, if_pos (by decide : (2013 : ℕ) ∈ lineIdxC2)]
  · show lineCanvasC2.pixels 4080 = ⟨0, 0, 0⟩
    rw [lineCanvasC2_pixels 4080, if_neg (by decide : (4080 : ℕ) ∉ lineIdxC2)]
  · show (List.range (lineCanvasC2.width * lineCanvasC2.height)).countP
        (fun k => decide (lineCanvasC2.pixels k = WHITE)) = 67
    have hcong : (List.range (lineCanvasC2.width * lineCanvasC2.height)).countP
          (fun k => decide (lineCanvasC2.pixels k = WHITE)) =
        (List.range (lineCanvasC2.width * lineCanvasC2.height)).countP
          (fun k => decide (k ∈ lineIdxC2)) := by
      apply List.countP_congr
      intro k _
      rw [lineCanvasC2_pixels k]
      by_cases hk : k ∈ lineIdxC2
      · simp [hk]
      · simp [hk, WHITE]
    rw [hcong]
    have hbound : ∀ a ∈ lineIdxC2, a < 10000 := by decide
    have hsub : ∀ a ∈ lineIdxC2, a ∈ List.range (lineCanvasC2.width * lineCanvasC2.height) :=
      fun a ha => List.mem_range.mpr (hbound a ha)
    rw [countP_mem_of_nodup (List.nodup_range _) (by decide) hsub]
    decide

/-! ## canvas_legacy.rs fixed-function Gouraud path (claim C4) -/

/-- maths.rs DEPTH_MAX. -/
def DEPTH_MAX : ℚ := 255

/-- maths.rs viewport_transform (also defined locally by
model_fixed_function with identical columns). -/
def viewport_transform (x y w h : ℚ) : Mat4Q :=
  ⟨⟨w / 2, 0, 0, 0⟩, ⟨0, h / 2, 0, 0⟩, ⟨0, 0, DEPTH_MAX / 2, 0⟩,
    ⟨x + w / 2, y + h / 2, DEPTH_MAX / 2, 1⟩⟩

/-- glam Mat4::IDENTITY. -/
def identity4 : Mat4Q := ⟨⟨1, 0, 0, 0⟩, ⟨0, 1, 0, 0⟩, ⟨0, 0, 1, 0⟩, ⟨0, 0, 0, 1⟩⟩

/-- Inclusive integer for-loop a..=b threading a canvas accumulator. -/
def foldRangeI (a b : ℤ) (f : Canvas → ℤ → Canvas) (c : Canvas) : Canvas :=
  (List.range (b + 1 - a).toNat).foldl (fun acc k => f acc (a + (k : ℤ))) c

/-- canvas_legacy.rs Canvas::triangle_barycentric_gouraud: clamped bounding
box (the three-point min/max loops unrolled), barycentric test, depth test
against the depth buffer, then textured gouraud-weighted pixel write. -/
def triangle_barycentric_gouraud (c : Canvas) (pts : Fin 3 → Vec3Q) (tex : Texture)
    (varying_uv : Fin 3 → Vec2Q) (light_intensity : Fin 3 → ℚ) : Canvas :=
  let clampx : ℚ := (c.width : ℚ) - 1
  let clampy : ℚ := (c.height : ℚ) - 1
  let bminx := yolo_max 0 (yolo_min (yolo_max 0 (yolo_min (yolo_max 0
      (yolo_min clampx (pts 0).x)) (pts 1).x)) (pts 2).x)
  let bminy := yolo_max 0 (yolo_min (yolo_max 0 (yolo_min (yolo_max 0
      (yolo_min clampy (pts 0).y)) (pts 1).y)) (pts 2).y)
  let bmaxx := yolo_min clampx (yolo_max (yolo_min clampx (yolo_max (yolo_min clampx
      (yolo_max 0 (pts 0).x)) (pts 1).x)) (pts 2).x)
  let bmaxy := yolo_min clampy (yolo_max (yolo_min clampy (yolo_max (yolo_min clampy
      (yolo_max 0 (pts 0).y)) (pts 1).y)) (pts 2).y)
  foldRangeI (ratTrunc bminx) (ratTrunc bmaxx) (fun c1 i =>
    foldRangeI (ratTrunc bminy) (ratTrunc bmaxy) (fun c2 j =>
      let p : Vec2Q := ⟨(i : ℚ), (j : ℚ)⟩
      let bc := barycentric_coords_3d pts p
      if bc.x < 0 ∨ bc.y < 0 ∨ bc.z < 0 then c2
      else
        let pixel_z := (pts 0).z * bc.x + (pts 1).z * bc.y + (pts 2).z * bc.z
        if c2.zAt i j < pixel_z then
          let c3 := c2.setZ i j pixel_z
          let uv := v2add (v2add (v2scale bc.x (varying_uv 0)) (v2scale bc.y (varying_uv 1)))
            (v2scale bc.z (varying_uv 2))
          let wli := light_intensity 0 * bc.x + light_intensity 1 * bc.y +
            light_intensity 2 * bc.z
          let color := rgbMap (fun comp => f32ToU8 ((comp : ℚ) * wli))
            ((tex.data.get? ((tex.height - ratFloorNat uv.y) * tex.width +
              ratFloorNat uv.x)).getD ⟨0, 0, 0⟩)
          c3.setPixel i j color
        else c2) c1) c

/-- One face of canvas_legacy.rs Canvas::model_fixed_function with Gouraud
shading: build the viewport and overall transform, project the three
vertices, scale the uvs into texel coordinates, compute the per-vertex
intensities normal.dot(light_dir), and rasterize only when some intensity
is positive. -/
def model_fixed_function_gouraud_face (c : Canvas) (verts : Fin 3 → Vec3Q)
    (normals : Fin 3 → Vec3Q) (uvs : Fin 3 → Vec2Q) (tex : Texture)
    (light_dir : Vec3Q) (transform : Option Mat4Q) : Canvas :=
  let viewport := viewport_transform ((c.width : ℚ) / 8) ((c.height : ℚ) / 8)
      ((c.width : ℚ) * 3 / 4) ((c.height : ℚ) * 3 / 4)
  let overall := m4mul viewport (transform.getD identity4)
  let screen3d : Fin 3 → Vec3Q := fun j =>
    let v4 := m4mulv overall ⟨(verts j).x, (verts j).y, (verts j).z, 1⟩
    ⟨v4.x / v4.w, v4.y / v4.w, v4.z / v4.w⟩
  let texture_coords : Fin 3 → Vec2Q := fun j =>
    ⟨(uvs j).x * (tex.width : ℚ), (uvs j).y * (tex.height : ℚ)⟩
  let vertex_intensity : Fin 3 → ℚ := fun j => v3dot (normals j) light_dir
  if vertex_intensity 0 > 0 ∨ vertex_intensity 1 > 0 ∨ vertex_intensity 2 > 0 then
    triangle_barycentric_gouraud c screen3d tex texture_coords vertex_intensity
  else c

/-- Claim C4: a Gouraud face whose three per-vertex intensities
normal.dot(light_dir) are all nonpositive is culled before rasterization:
the canvas is returned unchanged, no pixel and no depth value is written. -/
theorem gouraud_culling (c : Canvas) (verts normals : Fin 3 → Vec3Q)
    (uvs : Fin 3 → Vec2Q) (tex : Texture) (light_dir : Vec3Q) (transform : Option Mat4Q)
    (h : ∀ j, v3dot (normals j) light_dir ≤ 0) :
    model_fixed_function_gouraud_face c verts normals uvs tex light_dir transform = c := by
  have hng : ¬ (v3dot (normals 0) light_dir > 0 ∨ v3dot (normals 1) light_dir > 0 ∨
      v3dot (normals 2) light_dir > 0) := by
    push_neg
    exact ⟨h 0, h 1, h 2⟩
  simp only [model_fixed_function_gouraud_face]
  rw [if_neg hng]

def normalsC4 : Fin 3 → Vec3Q := fun _ => ⟨0, 0, 1⟩

def lightC4 : Vec3Q := ⟨0, 0, -1⟩

/-- Witness for claim C4: a back-facing triangle (all intensities -1)
leaves a concrete canvas unchanged. -/
theorem gouraud_culling_witness :
    (∀ j, v3dot (normalsC4 j) lightC4 ≤ 0) ∧
    model_fixed_function_gouraud_face (Canvas.new 4 4) (fun _ => ⟨0, 0, 0⟩) normalsC4
        (fun _ => ⟨0, 0⟩) texC3 lightC4 none = Canvas.new 4 4 :=
  ⟨fun j => by norm_num [normalsC4, lightC4, v3dot],
    gouraud_culling _ _ _ _ _ _ _ (fun j => by norm_num [normalsC4, lightC4, v3dot])⟩

/-! ## shaders.rs shader set (claims C10, C1) -/

structure GouraudShaderState where
  varying_uv : Fin 3 → Vec2Q
  varying_light_intensity : Fin 3 → ℚ

/-- shaders.rs GouraudShader (configuration fields; the vertex transform is
viewport * uniform_m as computed by its constructor). -/
structure GouraudShader where
  vertex_transform : Mat4Q
  light_dir : Vec3Q
  diffuse_texture : Option Texture
  bucket_light_intensity : Bool

/-- shaders.rs GouraudShader::fragment. -/
def GouraudShader.fragment (s : GouraudShader) (barycentric_coords : Vec3Q)
    (state : GouraudShaderState) : Option RGB8 :=
  let uv := v2add (v2add (v2scale barycentric_coords.x (state.varying_uv 0))
      (v2scale barycentric_coords.y (state.varying_uv 1)))
    (v2scale barycentric_coords.z (state.varying_uv 2))
  let wli := state.varying_light_intensity 0 * barycentric_coords.x +
    state.varying_light_intensity 1 * barycentric_coords.y +
    state.varying_light_intensity 2 * barycentric_coords.z
  let wli := if s.bucket_light_intensity then bucket_intensity wli else wli
  let unlit_color :=
    match s.diffuse_texture with
    | some tex => tex.get_pixelD uv
    | none => WHITE
  some (rgbMap (fun comp => f32ToU8 ((comp : ℚ) * wli)) unlit_color)

/-- shaders.rs NormalShader. -/
structure NormalShader where
  viewport : Mat4Q
  uniform_m : Mat4Q
  uniform_mit : Mat4Q
  light_dir : Vec3Q
  diffuse_texture : Texture
  normal_texture : Texture

/-- shaders.rs NormalShader::fragment. -/
def NormalShader.fragment (s : NormalShader) (barycentric_coords : Vec3Q)
    (varying_uv : Fin 3 → Vec2Q) : Option RGB8 :=
  let uv := v2add (v2add (v2scale barycentric_coords.x (varying_uv 0))
      (v2scale barycentric_coords.y (varying_uv 1)))
    (v2scale barycentric_coords.z (varying_uv 2))
  let n := v3normalize (project_point3 s.uniform_mit (s.normal_texture.get_normal uv))
  let l := v3normalize (project_point3 s.uniform_m s.light_dir)
  let intensity := yolo_max 0 (v3dot n l)
  let unlit_color := s.diffuse_texture.get_pixelD uv
  some (rgbMap (fun comp => f32ToU8 ((comp : ℚ) * intensity)) unlit_color)

/-- shaders.rs NormalMap. -/
inductive NormalMap where
  | GlobalSpace (t : Texture)
  | TangentSpace (t : Texture)

/-- shaders.rs PhongShadowInput. -/
structure PhongShadowInput where
  uniform_m_shadow : Mat4Q
  shadow_buffer : Canvas
  shadow_multiplier : ℚ
  shadow_z_fix : ℚ

/-- shaders.rs PhongShadowInput::new: stores 1 - shadow_darkness as the
multiplier. -/
def PhongShadowInput.new (uniform_m_shadow : Mat4Q) (shadow_buffer : Canvas)
    (shadow_darkness shadow_z_fix : ℚ) : PhongShadowInput :=
  ⟨uniform_m_shadow, shadow_buffer, 1 - shadow_darkness, shadow_z_fix⟩

structure PhongShaderState where
  varying_tri : Mat3Q
  varying_nrm : Mat3Q
  varying_uv : Fin 3 → Vec2Q

/-- shaders.rs PhongShader (configuration fields; uniform_mit is the
inverse transpose computed by its constructor). -/
structure PhongShader where
  viewport : Mat4Q
  uniform_m : Mat4Q
  uniform_mit : Mat4Q
  light_dir : Vec3Q
  phong_lighting_weights : Vec3Q
  diffuse_texture : Texture
  normal_texture : NormalMap
  specular_texture : Texture
  shadows : Option PhongShadowInput

/-- Model of f32 powf as used by the Phong shader: the exponent, a specular
texture red channel, is always an integer-valued float, so integer zpow is
exact there. -/
def powQ (base e : ℚ) : ℚ := base ^ ⌊e⌋

/-- The shadow-buffer point of PhongShader::fragment: project the
interpolated triangle position through uniform_m_shadow and divide by w. -/
def PhongShadowInput.shadowPoint (sh : PhongShadowInput) (varying_tri : Mat3Q)
    (barycentric_coords : Vec3Q) : Vec3Q :=
  let q := m3mulv varying_tri barycentric_coords
  let p := m4mulv sh.uniform_m_shadow ⟨q.x, q.y, q.z, 1⟩
  ⟨p.x / p.w, p.y / p.w, p.z / p.w⟩

/-- The shadow multiplier of PhongShader::fragment: when the shadow buffer
red channel at the projected point is at least the projected depth plus
shadow_z_fix the fragment counts as shaded and gets the stored multiplier
(1 - shadow_darkness), otherwise 1. -/
def PhongShadowInput.shadowFactor (sh : PhongShadowInput) (varying_tri : Mat3Q)
    (barycentric_coords : Vec3Q) : ℚ :=
  let sb_p := sh.shadowPoint varying_tri barycentric_coords
  if ((sh.shadow_buffer.pixel (ratTrunc sb_p.x) (ratTrunc sb_p.y)).r : ℚ) ≥
      sb_p.z + sh.shadow_z_fix
    then sh.shadow_multiplier else 1

/-- The interpolated uv of PhongShader::fragment. -/
def phongUV (st : PhongShaderState) (barycentric_coords : Vec3Q) : Vec2Q :=
  v2add (v2add (v2scale barycentric_coords.x (st.varying_uv 0))
      (v2scale barycentric_coords.y (st.varying_uv 1)))
    (v2scale barycentric_coords.z (st.varying_uv 2))

/-- The fragment normal of PhongShader::fragment: either the global-space
normal map corrected by the inverse transpose, or the tangent-space sample
carried through the Darboux frame built from the triangle edges and the
interpolated normal. -/
def phongNormal (s : PhongShader) (st : PhongShaderState) (bc : Vec3Q) : Vec3Q :=
  match s.normal_texture with
  | NormalMap.GlobalSpace tex =>
      v3normalize (project_point3 s.uniform_mit (tex.get_normal (phongUV st bc)))
  | NormalMap.TangentSpace tex =>
      let bn := v3normalize (m3mulv st.varying_nrm bc)
      let a_inverse := m3inverse (m3transpose
        ⟨v3sub (m3col st.varying_tri 1) (m3col st.varying_tri 0),
          v3sub (m3col st.varying_tri 2) (m3col st.varying_tri 0), bn⟩)
      let i := m3mulv a_inverse ⟨(st.varying_uv 1).x - (st.varying_uv 0).x,
        (st.varying_uv 2).x - (st.varying_uv 0).x, 0⟩
      let j := m3mulv a_inverse ⟨(st.varying_uv 1).y - (st.varying_uv 0).y,
        (st.varying_uv 2).y - (st.varying_uv 0).y, 0⟩
      let b : Mat3Q := ⟨v3normalize i, v3normalize j, bn⟩
      v3normalize (m3mulv b (tex.get_normal (phongUV st bc)))

/-- The transformed light of PhongShader::fragment. -/
def phongL (s : PhongShader) : Vec3Q := v3normalize (project_point3 s.uniform_m s.light_dir)

/-- The reflected light of PhongShader::fragment: normalize(n * (2 n.l) - l). -/
def phongR (s : PhongShader) (st : PhongShaderState) (bc : Vec3Q) : Vec3Q :=
  v3normalize (v3sub (v3scale (v3dot (phongNormal s st bc) (phongL s) * 2)
    (phongNormal s st bc)) (phongL s))

/-- The diffuse intensity of PhongShader::fragment: max(0, n.dot(light_dir)),
against the untransformed light direction. -/
def phongDiffuseIntensity (s : PhongShader) (st : PhongShaderState) (bc : Vec3Q) : ℚ :=
  yolo_max 0 (v3dot (phongNormal s st bc) s.light_dir)

/-- The specular intensity of PhongShader::fragment: max(0, r.z) to the
power of the specular texture sample. -/
def phongSpecularIntensity (s : PhongShader) (st : PhongShaderState) (bc : Vec3Q) : ℚ :=
  powQ (yolo_max 0 (phongR s st bc).z) (s.specular_texture.get_specular (phongUV st bc))

/-- One color channel of PhongShader::fragment before the u8 cast:
ambient_weight * 1 plus (component * shadow multiplier) times the weighted
diffuse plus specular term. -/
def phongChannel (weights : Vec3Q) (di si sm : ℚ) (comp : ℕ) : ℚ :=
  weights.x * 1 + ((comp : ℚ) * sm) * (weights.y * di + weights.z * si)

/-- shaders.rs PhongShader::fragment. -/
def PhongShader.fragment (s : PhongShader) (barycentric_coords : Vec3Q)
    (st : PhongShaderState) : Option RGB8 :=
  let shadow_multiplier :=
    match s.shadows with
    | some sh => sh.shadowFactor st.varying_tri barycentric_coords
    | none => 1
  some (rgbMap (fun comp => f32ToU8 (phongChannel s.phong_lighting_weights
      (phongDiffuseIntensity s st barycentric_coords)
      (phongSpecularIntensity s st barycentric_coords) shadow_multiplier comp))
    (s.diffuse_texture.get_pixelD (phongUV st barycentric_coords)))

/-- shaders.rs UnlitShader. -/
structure UnlitShader where
  vertex_transform : Mat4Q
  texture : Texture

/-- shaders.rs UnlitShader::fragment. -/
def UnlitShader.fragment (s : UnlitShader) (barycentric_coords : Vec3Q)
    (varying_uv : Fin 3 → Vec2Q) : Option RGB8 :=
  let uv := v2add (v2add (v2scale barycentric_coords.x (varying_uv 0))
      (v2scale barycentric_coords.y (varying_uv 1)))
    (v2scale barycentric_coords.z (varying_uv 2))
  some (s.texture.get_pixelD uv)

/-- shaders.rs DepthShader. -/
structure DepthShader where
  viewport : Mat4Q
  uniform_m : Mat4Q

/-- shaders.rs DepthShader::fragment. -/
def DepthShader.fragment (s : DepthShader) (barycentric_coords : Vec3Q)
    (varying_tri : Mat3Q) : Option RGB8 :=
  let p := m3mulv varying_tri barycentric_coords
  let depth_scaled := p.z / DEPTH_MAX
  some (rgbMap (fun c => f32ToU8 ((c : ℚ) * depth_scaled)) WHITE)

/-- shaders.rs PureColorShader. -/
structure PureColorShader where
  viewport : Mat4Q
  uniform_m : Mat4Q

/-- shaders.rs PureColorShader::fragment. -/
def PureColorShader.fragment (_s : PureColorShader) (_barycentric_coords : Vec3Q)
    (_st : Unit) : Option RGB8 :=
  some WHITE

/-- Claim C10: every fragment function in the shader set returns some color
on every input; none of them ever takes the discard branch of the fragment
contract. -/
theorem fragments_never_discard :
    (∀ (s : GouraudShader) (bc : Vec3Q) (st : GouraudShaderState),
      (s.fragment bc st).isSome = true) ∧
    (∀ (s : NormalShader) (bc : Vec3Q) (st : Fin 3 → Vec2Q),
      (s.fragment bc st).isSome = true) ∧
    (∀ (s : PhongShader) (bc : Vec3Q) (st : PhongShaderState),
      (s.fragment bc st).isSome = true) ∧
    (∀ (s : UnlitShader) (bc : Vec3Q) (st : Fin 3 → Vec2Q),
      (s.fragment bc st).isSome = true) ∧
    (∀ (s : DepthShader) (bc : Vec3Q) (st : Mat3Q),
      (s.fragment bc st).isSome = true) ∧
    (∀ (s : PureColorShader) (bc : Vec3Q) (st : Unit),
      (s.fragment bc st).isSome = true) := by
  refine ⟨?_, ?_, ?_, ?_, ?_, ?_⟩ <;> intro s bc st <;> rfl

/-! ## Claim C1: the Phong shadow term -/

/-- A 1x1 shadow buffer whose single pixel has red channel 10. -/
def cexShadowBuffer : Canvas := ⟨1, 1, fun _ => ⟨10, 10, 10⟩, fun _ => 0⟩

/-- Shadow input with darkness 0.7 (stored multiplier 0.3) and z fix 1. -/
def cexShadowInput : PhongShadowInput :=
  PhongShadowInput.new identity4 cexShadowBuffer (7/10) 1

/-- A screen triangle whose three columns sit at (0, 0, 5). -/
def cexTri : Mat3Q := ⟨⟨0, 0, 5⟩, ⟨0, 0, 5⟩, ⟨0, 0, 5⟩⟩

def cexBc : Vec3Q := ⟨1, 0, 0⟩

/-- Counterexample to claim C1: at this fragment the projected shadow point
is (0,0,5), the buffer red channel 10 satisfies 10 >= 5 + z_fix, yet the
multiplier applied is 0.3 = 1 - shadow_darkness, not 1: the comparison
direction in the claim is inverted relative to the code. -/
theorem phong_shadow_claim_cex :
    (((cexShadowInput.shadow_buffer.pixel
          (ratTrunc (cexShadowInput.shadowPoint cexTri cexBc).x)
          (ratTrunc (cexShadowInput.shadowPoint cexTri cexBc).y)).r : ℚ) ≥
        (cexShadowInput.shadowPoint cexTri cexBc).z + cexShadowInput.shadow_z_fix) ∧
    cexShadowInput.shadowFactor cexTri cexBc = 3/10 ∧ ((3 : ℚ)/10 ≠ 1) := by
  have hpt : cexShadowInput.shadowPoint cexTri cexBc = ⟨0, 0, 5⟩ := by
    simp only [PhongShadowInput.shadowPoint, cexShadowInput, PhongShadowInput.new,
      cexShadowBuffer, identity4, cexTri, cexBc, m3mulv, m4mulv, v3add, v3scale]
    norm_num
  have ht0 : ratTrunc (0 : ℚ) = 0 := by
    rw [show (0 : ℚ) = ((0 : ℤ) : ℚ) by norm_num, ratTrunc_intCast]
  refine ⟨?_, ?_, by norm_num⟩
  · rw [hpt]
    show ((cexShadowInput.shadow_buffer.pixel (ratTrunc 0) (ratTrunc 0)).r : ℚ) ≥
      5 + cexShadowInput.shadow_z_fix
    rw [ht0]
    norm_num [cexShadowInput, PhongShadowInput.new, cexShadowBuffer, Canvas.pixel]
  · rw [PhongShadowInput.shadowFactor, hpt]
    norm_num [ht0, cexShadowInput, PhongShadowInput.new, cexShadowBuffer, Canvas.pixel]

/-- Claim C1 amended: with shadow input present the Phong fragment output
scales only the weighted diffuse plus specular term (never the ambient
term) by the shadow multiplier, and the multiplier is the stored
1 - shadow_darkness when the shadow buffer red channel at the projected
point is at least the projected depth plus shadow_z_fix (the fragment is
shadowed there), and 1 (lit) otherwise: the comparison direction is the
reverse of the one claimed. -/
theorem phong_shadow_amended (s : PhongShader) (bc : Vec3Q) (st : PhongShaderState)
    (sh : PhongShadowInput) (hs : s.shadows = some sh) :
    s.fragment bc st = some (rgbMap (fun comp => f32ToU8
        (phongChannel s.phong_lighting_weights (phongDiffuseIntensity s st bc)
          (phongSpecularIntensity s st bc) (sh.shadowFactor st.varying_tri bc) comp))
      (s.diffuse_texture.get_pixelD (phongUV st bc))) ∧
    (sh.shadowFactor st.varying_tri bc =
      if ((sh.shadow_buffer.pixel (ratTrunc (sh.shadowPoint st.varying_tri bc).x)
            (ratTrunc (sh.shadowPoint st.varying_tri bc).y)).r : ℚ) ≥
          (sh.shadowPoint st.varying_tri bc).z + sh.shadow_z_fix
        then sh.shadow_multiplier else 1) ∧
    (∀ m buf d z, (PhongShadowInput.new m buf d z).shadow_multiplier = 1 - d) ∧
    (∀ di si m m' comp, phongChannel s.phong_lighting_weights di si m comp -
        phongChannel s.phong_lighting_weights di si m' comp =
      (m - m') * ((comp : ℚ) *
        (s.phong_lighting_weights.y * di + s.phong_lighting_weights.z * si))) := by
  refine ⟨?_, rfl, fun m buf d z => rfl, fun di si m m' comp => ?_⟩
  · simp only [PhongShader.fragment, hs]
  · unfold phongChannel
    ring

/-- Witness for the amended claim C1 at a concrete shadowed configuration. -/
theorem phong_shadow_amended_witness :
    (PhongShader.mk identity4 identity4 identity4 ⟨0, 0, 1⟩ ⟨0, 1, 0⟩ texC3
        (NormalMap.GlobalSpace texC3) texC3 (some cexShadowInput)).shadows =
      some cexShadowInput ∧
    (cexShadowInput.shadowFactor
        (PhongShaderState.mk cexTri cexTri (fun _ => ⟨0, 1⟩)).varying_tri cexBc =
      if ((cexShadowInput.shadow_buffer.pixel
            (ratTrunc (cexShadowInput.shadowPoint
              (PhongShaderState.mk cexTri cexTri (fun _ => ⟨0, 1⟩)).varying_tri cexBc).x)
            (ratTrunc (cexShadowInput.shadowPoint
              (PhongShaderState.mk cexTri cexTri (fun _ => ⟨0, 1⟩)).varying_tri cexBc).y)).r : ℚ) ≥
          (cexShadowInput.shadowPoint
            (PhongShaderState.mk cexTri cexTri (fun _ => ⟨0, 1⟩)).varying_tri cexBc).z +
            cexShadowInput.shadow_z_fix
        then cexShadowInput.shadow_multiplier else 1) :=
  ⟨rfl,
    (phong_shadow_amended
        (PhongShader.mk identity4 identity4 identity4 ⟨0, 0, 1⟩ ⟨0, 1, 0⟩ texC3
          (NormalMap.GlobalSpace texC3) texC3 (some cexShadowInput)) cexBc
        (PhongShaderState.mk cexTri cexTri (fun _ => ⟨0, 1⟩)) cexShadowInput rfl).2.1⟩

end CrabTV
